import Mathlib

/-! Verification development for the DeepFool attack
(`src/foolbox/attacks/deepfool.py`).

The attack is embedded shallowly:

* A batch of inputs is a `List (List α)`: one flattened list of values per
  sample, over a linear ordered field `α` standing for the floating point
  reals of the source.  All tensor operations the attack performs on the
  input act elementwise or on the flattened sample, so this representation
  is faithful for the attack's arithmetic.
* The model is the external collaborator of the source: an evaluation map
  `forward` (`model(x)`), the bounds pair, the number of classes
  (`logits.shape[-1]` for a shape-regular model), the gradient component of
  `ep.value_and_grad_fn`'s output (external autodiff, hence an opaque field
  `gradLoss x k` giving the gradient for candidate position `k` at `x`), and
  the external `ep.crossentropy` primitive (opaque field `ce`).
* The criterion is the external predicate `criterion(x, logits)` returning a
  per-sample boolean list.
* The two abstract methods `get_distances` / `get_perturbations` of
  `DeepFoolAttack` are the fields `getDist` / `getPert` of the environment;
  the two concrete subclasses provide them.
* `raise ValueError` becomes the `Except DFError` monad with one error
  constructor per raise site.
-/

namespace DeepFool

variable {α : Type} [LinearOrderedField α]

/-- A batch: one flattened sample per entry. -/
abbrev Batch (α : Type) := List (List α)

/-- The external model collaborator of the attack.  `numClasses` models
`logits.shape[-1]` of a shape-regular model, `bounds` is `model.bounds`,
`forward` is `model(x)`, `gradLoss x k` is the gradient part of
`ep.value_and_grad_fn(x, loss_fun, has_aux=True)` evaluated at `(x, k)`
(autodiff is external to the repository), and `ce` is the external
`ep.crossentropy` primitive applied to one row of logits and a label. -/
structure Model (α : Type) where
  numClasses : Nat
  bounds : α × α
  forward : Batch α → Batch α
  gradLoss : Batch α → Nat → Batch α
  ce : List α → Nat → α

/-- Everything `DeepFoolAttack.__call__` interacts with: the two abstract
norm-strategy methods, the model, and the criterion predicate. -/
structure DFEnv (α : Type) where
  getDist : List (List α) → List (List (List α)) → List (List α)
  getPert : List α → List (List α) → List (List α)
  model : Model α
  crit : Batch α → Batch α → List Bool

/-- Constructor arguments of `DeepFoolAttack.__init__`. -/
structure DFConfig (α : Type) where
  steps : Nat
  candidates : Option Nat
  overshoot : α
  loss : String

/-- The two `raise ValueError` sites of `DeepFoolAttack.__call__`: the
candidate-count check (the message quotes `logits.shape[-1]`) and the loss
mode check (the message quotes the offending string). -/
inductive DFError where
  | candidatesError (numClasses : Nat)
  | lossError (got : String)
deriving DecidableEq

/-- The mutable loop state of `__call__`: the working adversarial candidate
`x` and the accumulated perturbation `p_total`. -/
structure DFState (α : Type) where
  x : Batch α
  pTotal : Batch α
deriving DecidableEq

instance {ε β : Type} [DecidableEq ε] [DecidableEq β] : DecidableEq (Except ε β) := fun a b =>
  match a, b with
  | Except.ok u, Except.ok v =>
    if h : u = v then isTrue (by rw [h]) else isFalse (fun hc => by cases hc; exact h rfl)
  | Except.error u, Except.error v =>
    if h : u = v then isTrue (by rw [h]) else isFalse (fun hc => by cases hc; exact h rfl)
  | Except.ok _, Except.error _ => isFalse (fun hc => by cases hc)
  | Except.error _, Except.ok _ => isFalse (fun hc => by cases hc)

/-- The fixed numeric-stability constant `1e-8` of both norm strategies. -/
def eps8 : α := 1 / 10 ^ 8

/-- The fixed stability offset `1e-4` added to the selected distances. -/
def stab4 : α := 1 / 10 ^ 4

/-- Elementwise `ep.clip(x, min_, max_)` (numpy clip semantics). -/
def clipVal (min_ max_ v : α) : α := min (max v min_) max_

/-- Embeds `ep.zeros_like(x)`. -/
def zerosLike (x : Batch α) : Batch α := x.map (fun r => r.map (fun _ => 0))

/-- Elementwise addition of two batches (`p_total += p_step`). -/
def addMat (a b : Batch α) : Batch α := List.zipWith (List.zipWith (fun u v => u + v)) a b

/-- Elementwise `ep.sign`. -/
def signv (v : α) : α := if 0 < v then 1 else if v < 0 then -1 else 0

/-- Insert index `i` into an index list sorted ascending by `row` value
(helper for `argsortAsc`). -/
def insertRank (row : List α) (i : Nat) : List Nat → List Nat
  | [] => [i]
  | j :: js => if row.getD i 0 ≤ row.getD j 0 then i :: j :: js else j :: insertRank row i js

/-- Embeds `row.argsort(axis=-1)`: the indices of `row` sorted by ascending value. -/
def argsortAsc (row : List α) : List Nat := (List.range row.length).foldr (insertRank row) []

/-- Embeds `row.argsort(axis=-1).flip(axis=-1)`: indices sorted by descending
value; position 0 is the predicted (top-scoring) class. -/
def argsortDesc (row : List α) : List Nat := (argsortAsc row).reverse

/-- Tail of numpy `argmin`: scan the remaining values keeping the current
best value, the next position, and the current best position. -/
def argminAux : List α → α → Nat → Nat → Nat
  | [], _, _, bi => bi
  | a :: as, bv, i, bi => if a < bv then argminAux as a (i + 1) i else argminAux as bv (i + 1) bi

/-- Embeds `row.argmin(axis=-1)`: index of the first minimal entry of `row`. -/
def argminIdx : List α → Nat
  | [] => 0
  | a :: as => argminAux as a 1 0

/-- Sum of the absolute values of a flattened gradient
(`flatten(grads, keep=2).abs().sum(axis=-1)`, per entry). -/
def flatSumAbs (g : List α) : α := (g.map (fun v => |v|)).sum

/-- Embeds `LinfDeepFoolAttack.get_distances`:
`abs(losses) / (flatten(grads, keep=2).abs().sum(axis=-1) + 1e-8)`. -/
def linfGetDistances (losses : List (List α)) (grads : List (List (List α))) : List (List α) :=
  List.zipWith
    (fun lrow grow => List.zipWith (fun l g => |l| / (flatSumAbs g + eps8)) lrow grow)
    losses grads

/-- Embeds `LinfDeepFoolAttack.get_perturbations`:
`atleast_kd(distances, grads.ndim) * grads.sign()`. -/
def linfGetPerturbations (distances : List α) (grads : List (List α)) : List (List α) :=
  List.zipWith (fun d grow => grow.map (fun g => d * signv g)) distances grads

/-- Euclidean norm of a flattened gradient (`.norms.l2(axis=-1)` after
`flatten`; `flatten` of an already flat sample is the identity). -/
noncomputable def l2normFlat (g : List ℝ) : ℝ := Real.sqrt ((g.map (fun v => v ^ 2)).sum)

/-- Embeds `L2DeepFoolAttack.get_distances`:
`abs(losses) / (flatten(grads, keep=2).norms.l2(axis=-1) + 1e-8)`. -/
noncomputable def l2GetDistances (losses : List (List ℝ)) (grads : List (List (List ℝ))) :
    List (List ℝ) :=
  List.zipWith
    (fun lrow grow => List.zipWith (fun l g => |l| / (l2normFlat g + eps8)) lrow grow)
    losses grads

/-- Embeds `L2DeepFoolAttack.get_perturbations`:
`atleast_kd(distances / (flatten(grads).norms.l2(axis=-1) + 1e-8), grads.ndim) * grads`. -/
noncomputable def l2GetPerturbations (distances : List ℝ) (grads : List (List ℝ)) :
    List (List ℝ) :=
  List.zipWith (fun d grow => grow.map (fun g => (d / (l2normFlat grow + eps8)) * g))
    distances grads

/-- The candidate-count resolution of `__call__` (lines 61-70):
`None` means all classes with no validation; an explicit bound is truncated
to `min(candidates, logits.shape[-1])` and must resolve to at least 2. -/
def resolveCandidates (cand : Option Nat) (numClasses : Nat) : Except DFError Nat :=
  match cand with
  | none => Except.ok numClasses
  | some m =>
    let k := min m numClasses
    if 2 ≤ k then Except.ok k else Except.error (DFError.candidatesError numClasses)

/-- The per-sample loss vector of `loss_fun` in `"logits"` mode:
`logits[rows, classes[:, k]] - logits[rows, classes[:, 0]]`. -/
def lossFunLogits (model : Model α) (classes : List (List Nat)) (x : Batch α) (k : Nat) :
    List α :=
  List.zipWith
    (fun lrow crow => lrow.getD (crow.getD k 0) 0 - lrow.getD (crow.getD 0 0) 0)
    (model.forward x) classes

/-- The per-sample loss vector of `loss_fun` in `"crossentropy"` mode:
`(-crossentropy(logits, classes[:, k])) - (-crossentropy(logits, classes[:, 0]))`. -/
def lossFunCE (model : Model α) (classes : List (List Nat)) (x : Batch α) (k : Nat) :
    List α :=
  List.zipWith
    (fun lrow crow => (-(model.ce lrow (crow.getD k 0))) - (-(model.ce lrow (crow.getD 0 0))))
    (model.forward x) classes

/-- The loss mode dispatch of `__call__` (lines 76-103): `"logits"`,
`"crossentropy"`, or `raise ValueError`. -/
def selectLossFn (loss : String) (model : Model α) (classes : List (List Nat)) :
    Except DFError (Batch α → Nat → List α) :=
  if loss = "logits" then Except.ok (lossFunLogits model classes)
  else if loss = "crossentropy" then Except.ok (lossFunCE model classes)
  else Except.error (DFError.lossError loss)

/-- The candidate positions evaluated in one loop step: `k = 1` always
(`diffs = [loss_aux_and_grad(x, 1)]`), then `k in range(2, candidates)`. -/
def dfKs (cand : Nat) : List Nat := 1 :: (List.range (cand - 2)).map (fun j => j + 2)

/-- Embeds `ep.stack([...], axis=1)` of equally long per-candidate vectors: entry
`i` of the result collects entry `i` of every stacked vector. -/
def stackAxis1 (ts : List (List β)) (d : β) : List (List β) :=
  (List.range (ts.getD 0 []).length).map (fun i => ts.map (fun t => t.getD i d))

/-- The `losses` of one loop step: the per-candidate loss vectors stacked along
axis 1, giving shape `(N, candidates - 1)`. -/
def stackedLosses (lossFn : Batch α → Nat → List α) (cand : Nat) (x : Batch α) :
    List (List α) :=
  stackAxis1 ((dfKs cand).map (fun k => lossFn x k)) 0

/-- The `grads` of one loop step: the per-candidate gradients stacked along
axis 1, giving shape `(N, candidates - 1, ...)`. -/
def stackedGrads (env : DFEnv α) (cand : Nat) (x : Batch α) : List (List (List α)) :=
  stackAxis1 ((dfKs cand).map (fun k => env.model.gradLoss x k)) []

/-- One step's perturbation `p_step` (lines 128-146): distances from the
norm strategy, best candidate by `argmin`, selected distance plus the
`1e-4` stability offset, and the strategy's perturbation. -/
def dfPStep (env : DFEnv α) (lossFn : Batch α → Nat → List α) (cand : Nat) (x : Batch α) :
    Batch α :=
  let distances := env.getDist (stackedLosses lossFn cand x) (stackedGrads env cand x)
  let best := distances.map argminIdx
  let dSel := List.zipWith (fun row b => List.getD row b 0 + stab4) distances best
  let gradsSel := List.zipWith (fun row (b : Nat) => List.getD row b []) (stackedGrads env cand x) best
  env.getPert dSel gradsSel

/-- Embeds `x0 + (1.0 + overshoot) * p_total`, elementwise. -/
def dfXCand (ov : α) (x0 pTotal : Batch α) : Batch α :=
  List.zipWith (fun r0 rp => List.zipWith (fun a p => a + (1 + ov) * p) r0 rp) x0 pTotal

/-- One executed loop body (lines 118-153, after the early-exit check):
`p_total += p_step`; `x = ep.where(atleast_kd(is_adv, x.ndim), x,
x0 + (1.0 + overshoot) * p_total)`; `x = ep.clip(x, min_, max_)`. -/
def dfBody (env : DFEnv α) (lossFn : Batch α → Nat → List α) (cand : Nat) (isAdv : List Bool)
    (ov min_ max_ : α) (x0 : Batch α) (s : DFState α) : DFState α :=
  let pTotal' := addMat s.pTotal (dfPStep env lossFn cand s.x)
  let xSel := List.zipWith (fun p ci => if p.1 then p.2 else ci)
    (List.zipWith Prod.mk isAdv s.x) (dfXCand ov x0 pTotal')
  ⟨xSel.map (fun r => r.map (clipVal min_ max_)), pTotal'⟩

/-- The iteration loop `for _ in range(self.steps)` (lines 109-153): each
step recomputes the logits at the current `x`, exits when the criterion
flags the whole batch, and otherwise runs one body. -/
def dfLoop (env : DFEnv α) (lossFn : Batch α → Nat → List α) (cand : Nat)
    (ov min_ max_ : α) (x0 : Batch α) : Nat → DFState α → DFState α
  | 0, s => s
  | n + 1, s =>
    if (env.crit s.x (env.model.forward s.x)).all (fun b => b) then s
    else
      dfLoop env lossFn cand ov min_ max_ x0 n
        (dfBody env lossFn cand (env.crit s.x (env.model.forward s.x)) ov min_ max_ x0 s)

/-- Embeds `classes = logits.argsort(axis=-1).flip(axis=-1)` at the original
inputs. -/
def classesFullOf (env : DFEnv α) (x : Batch α) : List (List Nat) :=
  (env.model.forward x).map argsortDesc

/-- The candidate set actually used: truncated to the resolved count when
`candidates` was given explicitly, the full set otherwise. -/
def classesOf (env : DFEnv α) (cfg : DFConfig α) (x : Batch α) (cand : Nat) :
    List (List Nat) :=
  match cfg.candidates with
  | none => classesFullOf env x
  | some _ => (classesFullOf env x).map (List.take cand)

/-- Embeds `DeepFoolAttack.__call__`: candidate resolution, loss mode dispatch,
then the iteration loop started at `x0 = x`, `p_total = 0`, returning the
final working input. -/
def deepfoolCall (env : DFEnv α) (cfg : DFConfig α) (inputs : Batch α) :
    Except DFError (Batch α) :=
  match resolveCandidates cfg.candidates env.model.numClasses with
  | Except.error e => Except.error e
  | Except.ok cand =>
    match selectLossFn cfg.loss env.model (classesOf env cfg inputs cand) with
    | Except.error e => Except.error e
    | Except.ok lossFn =>
      Except.ok
        (dfLoop env lossFn cand cfg.overshoot env.model.bounds.1 env.model.bounds.2 inputs
          cfg.steps ⟨inputs, zerosLike inputs⟩).x

/-- All values of a batch lie within the model bounds. -/
abbrev inBounds (min_ max_ : α) (x : Batch α) : Prop :=
  ∀ r ∈ x, ∀ v ∈ r, min_ ≤ v ∧ v ≤ max_

/- Concrete instantiations over `ℚ`, used by the closed counterexample and
witness theorems below. -/

/-- A model evaluation returning the constant logits `[1, 0]` per sample. -/
def fwdConst : Batch ℚ → Batch ℚ := fun x => x.map (fun _ => [1, 0])

/-- A gradient oracle returning the constant gradient `[1]` per sample. -/
def gradOne : Batch ℚ → Nat → Batch ℚ := fun x _ => x.map (fun _ => [1])

/-- A trivial stand-in for the external crossentropy primitive. -/
def ceZero : List ℚ → Nat → ℚ := fun _ _ => 0

/-- A 2-class model with bounds `(0, 1)`. -/
def modelNarrow : Model ℚ := ⟨2, (0, 1), fwdConst, gradOne, ceZero⟩

/-- A 2-class model with wide bounds `(-10, 10)`. -/
def modelWide : Model ℚ := ⟨2, (-10, 10), fwdConst, gradOne, ceZero⟩

/-- A 1-class model with bounds `(0, 1)`. -/
def modelOne : Model ℚ := ⟨1, (0, 1), fun x => x.map (fun _ => [1]), gradOne, ceZero⟩

/-- Linf attack on `modelNarrow` whose criterion always flags the single
sample adversarial. -/
def envAdvAll : DFEnv ℚ := ⟨linfGetDistances, linfGetPerturbations, modelNarrow, fun _ _ => [true]⟩

/-- Linf attack on `modelNarrow` whose criterion never flags the single
sample adversarial. -/
def envAdvNone : DFEnv ℚ := ⟨linfGetDistances, linfGetPerturbations, modelNarrow, fun _ _ => [false]⟩

/-- Linf attack on `modelNarrow` flagging sample 0 adversarial and sample 1
not. -/
def envHalf : DFEnv ℚ := ⟨linfGetDistances, linfGetPerturbations, modelNarrow, fun _ _ => [true, false]⟩

/-- Linf attack on `modelWide` flagging sample 0 adversarial and sample 1
not. -/
def envHalfWide : DFEnv ℚ := ⟨linfGetDistances, linfGetPerturbations, modelWide, fun _ _ => [true, false]⟩

/-- Linf attack on the 1-class model. -/
def envOne : DFEnv ℚ := ⟨linfGetDistances, linfGetPerturbations, modelOne, fun _ _ => [false]⟩

/-- The two-sample batch used by the accumulator counterexample. -/
def x7 : Batch ℚ := [[0], [0]]

/-- Configuration with 2 steps, 2 candidates, zero overshoot, logits loss. -/
def cfg7 : DFConfig ℚ := ⟨2, some 2, 0, "logits"⟩

/-- The loss function the call pipeline builds for `envHalfWide` on `x7`. -/
def loss7 : Batch ℚ → Nat → List ℚ := lossFunLogits modelWide (classesOf envHalfWide cfg7 x7 2)

/-- The loop state of the `envHalfWide` run after `n` steps. -/
def s7 (n : Nat) : DFState ℚ := dfLoop envHalfWide loss7 2 0 (-10) 10 x7 n ⟨x7, zerosLike x7⟩

/-- A concrete loss function (constant per-sample losses `-1`) used by the
masking witness. -/
def wLoss : Batch ℚ → Nat → List ℚ := fun _ _ => [-1, -1]

/- General helper lemmas. -/

theorem getD_zipWith {β γ δ : Type} (f : β → γ → δ) (as : List β) (bs : List γ) (i : Nat)
    (db : β) (dc : γ) (dd : δ) (h1 : i < as.length) (h2 : i < bs.length) :
    (List.zipWith f as bs).getD i dd = f (as.getD i db) (bs.getD i dc) := by
  induction as generalizing bs i with
  | nil => simp at h1
  | cons a as ih =>
    cases bs with
    | nil => simp at h2
    | cons b bs =>
      cases i with
      | zero => rfl
      | succ n =>
        simp only [List.zipWith_cons_cons, List.getD_cons_succ]
        exact ih bs n (Nat.lt_of_succ_lt_succ h1) (Nat.lt_of_succ_lt_succ h2)

theorem getD_map {β γ : Type} (f : β → γ) (l : List β) (i : Nat) (db : β) (dc : γ)
    (h : i < l.length) :
    (l.map f).getD i dc = f (l.getD i db) := by
  induction l generalizing i with
  | nil => simp at h
  | cons a l ih =>
    cases i with
    | zero => rfl
    | succ n =>
      simp only [List.map_cons, List.getD_cons_succ]
      exact ih n (Nat.lt_of_succ_lt_succ h)

theorem clipVal_mem (min_ max_ v : α) (hb : min_ ≤ max_) :
    min_ ≤ clipVal min_ max_ v ∧ clipVal min_ max_ v ≤ max_ := by
  unfold clipVal
  exact ⟨le_min (le_max_right v min_) hb, min_le_right _ _⟩

theorem clipVal_eq_self (min_ max_ v : α) (h1 : min_ ≤ v) (h2 : v ≤ max_) :
    clipVal min_ max_ v = v := by
  unfold clipVal
  rw [max_eq_left h1, min_eq_left h2]

theorem insertRank_length (row : List α) (i : Nat) (l : List Nat) :
    (insertRank row i l).length = l.length + 1 := by
  induction l with
  | nil => rfl
  | cons j js ih =>
    unfold insertRank
    by_cases h : row.getD i 0 ≤ row.getD j 0
    · rw [if_pos h]
      simp
    · rw [if_neg h]
      simp [ih]

theorem argsortAsc_length (row : List α) : (argsortAsc row).length = row.length := by
  unfold argsortAsc
  have h : ∀ l : List Nat, (l.foldr (insertRank row) []).length = l.length := by
    intro l
    induction l with
    | nil => rfl
    | cons a l ih => simp [List.foldr_cons, insertRank_length, ih]
  rw [h, List.length_range]

theorem argsortDesc_length (row : List α) : (argsortDesc row).length = row.length := by
  unfold argsortDesc
  rw [List.length_reverse, argsortAsc_length]

/- Helper lemmas about the attack pipeline. -/

theorem dfBody_pTotal (env : DFEnv α) (lossFn : Batch α → Nat → List α) (cand : Nat)
    (isAdv : List Bool) (ov min_ max_ : α) (x0 : Batch α) (s : DFState α) :
    (dfBody env lossFn cand isAdv ov min_ max_ x0 s).pTotal =
      addMat s.pTotal (dfPStep env lossFn cand s.x) := rfl

theorem dfBody_x_inBounds (env : DFEnv α) (lossFn : Batch α → Nat → List α) (cand : Nat)
    (isAdv : List Bool) (ov min_ max_ : α) (x0 : Batch α) (s : DFState α)
    (hb : min_ ≤ max_) :
    inBounds min_ max_ (dfBody env lossFn cand isAdv ov min_ max_ x0 s).x := by
  intro r hr v hv
  simp only [dfBody, List.mem_map] at hr
  obtain ⟨r', _, rfl⟩ := hr
  simp only [List.mem_map] at hv
  obtain ⟨w, _, rfl⟩ := hv
  exact clipVal_mem min_ max_ w hb

theorem dfLoop_x_inBounds (env : DFEnv α) (lossFn : Batch α → Nat → List α) (cand : Nat)
    (ov min_ max_ : α) (x0 : Batch α) (n : Nat) (s : DFState α)
    (hb : min_ ≤ max_) (hx : inBounds min_ max_ s.x) :
    inBounds min_ max_ (dfLoop env lossFn cand ov min_ max_ x0 n s).x := by
  induction n generalizing s with
  | zero => exact hx
  | succ n ih =>
    rw [dfLoop]
    by_cases h : (env.crit s.x (env.model.forward s.x)).all (fun b => b) = true
    · rw [if_pos h]; exact hx
    · rw [if_neg h]
      exact ih _ (dfBody_x_inBounds env lossFn cand _ ov min_ max_ x0 s hb)

theorem dfLoop_succ_all_adv (env : DFEnv α) (lossFn : Batch α → Nat → List α) (cand : Nat)
    (ov min_ max_ : α) (x0 : Batch α) (n : Nat) (s : DFState α)
    (h : (env.crit s.x (env.model.forward s.x)).all (fun b => b) = true) :
    dfLoop env lossFn cand ov min_ max_ x0 (n + 1) s = s := by
  rw [dfLoop, if_pos h]

theorem selectLossFn_ok_of_valid (loss : String) (model : Model α) (classes : List (List Nat))
    (h : loss = "logits" ∨ loss = "crossentropy") :
    ∃ f, selectLossFn loss model classes = Except.ok f := by
  rcases h with h | h
  · exact ⟨_, by rw [h]; rfl⟩
  · exact ⟨_, by rw [h]; rfl⟩

theorem resolveCandidates_error_eq (cand : Option Nat) (numClasses : Nat) (e : DFError)
    (h : resolveCandidates cand numClasses = Except.error e) :
    e = DFError.candidatesError numClasses := by
  match cand with
  | none => exact absurd h (by simp [resolveCandidates])
  | some m =>
    simp only [resolveCandidates] at h
    by_cases h2 : 2 ≤ min m numClasses
    · rw [if_pos h2] at h; exact absurd h (by simp)
    · rw [if_neg h2] at h
      cases h
      rfl

theorem deepfoolCall_error_of_resolve (env : DFEnv α) (cfg : DFConfig α) (inputs : Batch α)
    (e : DFError) (h : resolveCandidates cfg.candidates env.model.numClasses = Except.error e) :
    deepfoolCall env cfg inputs = Except.error e := by
  unfold deepfoolCall
  rw [h]

theorem deepfoolCall_ok_unfold (env : DFEnv α) (cfg : DFConfig α) (inputs : Batch α)
    (cand : Nat) (lossFn : Batch α → Nat → List α)
    (hc : resolveCandidates cfg.candidates env.model.numClasses = Except.ok cand)
    (hl : selectLossFn cfg.loss env.model (classesOf env cfg inputs cand) = Except.ok lossFn) :
    deepfoolCall env cfg inputs =
      Except.ok
        (dfLoop env lossFn cand cfg.overshoot env.model.bounds.1 env.model.bounds.2 inputs
          cfg.steps ⟨inputs, zerosLike inputs⟩).x := by
  simp only [deepfoolCall, hc, hl]

theorem deepfoolCall_lossError (env : DFEnv α) (cfg : DFConfig α) (inputs : Batch α)
    (cand : Nat)
    (hc : resolveCandidates cfg.candidates env.model.numClasses = Except.ok cand)
    (h1 : cfg.loss ≠ "logits") (h2 : cfg.loss ≠ "crossentropy") :
    deepfoolCall env cfg inputs = Except.error (DFError.lossError cfg.loss) := by
  have hsel : selectLossFn cfg.loss env.model (classesOf env cfg inputs cand) =
      Except.error (DFError.lossError cfg.loss) := by
    unfold selectLossFn
    rw [if_neg h1, if_neg h2]
  simp only [deepfoolCall, hc, hsel]

theorem mapClip_eq_self (min_ max_ : α) (r : List α) (hr : ∀ v ∈ r, min_ ≤ v ∧ v ≤ max_) :
    r.map (clipVal min_ max_) = r := by
  induction r with
  | nil => rfl
  | cons a t ih =>
    simp only [List.map_cons]
    rw [clipVal_eq_self min_ max_ a (hr a (by simp)).1 (hr a (by simp)).2]
    rw [ih (fun v hv => hr v (by simp [hv]))]

theorem dfBody_x (env : DFEnv α) (lossFn : Batch α → Nat → List α) (cand : Nat)
    (isAdv : List Bool) (ov min_ max_ : α) (x0 : Batch α) (s : DFState α) :
    (dfBody env lossFn cand isAdv ov min_ max_ x0 s).x =
      (List.zipWith (fun p ci => if p.1 then p.2 else ci) (List.zipWith Prod.mk isAdv s.x)
        (dfXCand ov x0 (dfBody env lossFn cand isAdv ov min_ max_ x0 s).pTotal)).map
        (fun r => r.map (clipVal min_ max_)) := rfl

theorem abs_mul_signv (dd g0 : α) (hd : 0 ≤ dd) (hg : g0 ≠ 0) : |dd * signv g0| = dd := by
  unfold signv
  rcases lt_trichotomy g0 0 with h | h | h
  · rw [if_neg (asymm h), if_pos h, mul_neg_one, abs_neg, abs_of_nonneg hd]
  · exact absurd h hg
  · rw [if_pos h, mul_one, abs_of_nonneg hd]

/- Claim theorems. -/

set_option maxRecDepth 100000

/-- C1 (counterexample): the clipping invariant does not hold for every
model, criterion, and input batch.  With a criterion that flags the sample
adversarial at the very first step, the input `[[2]]` is returned unchanged
even though it lies outside the model bounds `(0, 1)`: the early exit skips
the clip. -/
theorem clip_invariant_counterexample :
    deepfoolCall envAdvAll ⟨1, some 2, 1/50, "logits"⟩ [[2]] = Except.ok [[2]] ∧
    ¬(envAdvAll.model.bounds.1 ≤ (2 : ℚ) ∧ (2 : ℚ) ≤ envAdvAll.model.bounds.2) := by
  constructor
  · norm_num [deepfoolCall, resolveCandidates, selectLossFn, classesOf, classesFullOf, envAdvAll,
      modelNarrow, fwdConst, argsortDesc, argsortAsc, insertRank, zerosLike, dfLoop,
      List.range_succ]
  · norm_num [envAdvAll, modelNarrow]

/-- C1 (amended): provided the model bounds are ordered and every input
value already lies within them, every value of the batch returned by
`__call__` lies within `[min_, max_]`, for any norm strategy (hence for
both the L2 and the L-infinity variant). -/
theorem output_within_bounds (env : DFEnv α) (cfg : DFConfig α) (inputs : Batch α)
    (y : Batch α)
    (hb : env.model.bounds.1 ≤ env.model.bounds.2)
    (hin : inBounds env.model.bounds.1 env.model.bounds.2 inputs)
    (hy : deepfoolCall env cfg inputs = Except.ok y) :
    inBounds env.model.bounds.1 env.model.bounds.2 y := by
  cases hres : resolveCandidates cfg.candidates env.model.numClasses with
  | error e =>
    rw [deepfoolCall_error_of_resolve env cfg inputs e hres] at hy
    exact Except.noConfusion hy
  | ok cand =>
    cases hsel : selectLossFn cfg.loss env.model (classesOf env cfg inputs cand) with
    | error e =>
      have herr : deepfoolCall env cfg inputs = Except.error e := by
        simp only [deepfoolCall, hres, hsel]
      rw [herr] at hy
      exact Except.noConfusion hy
    | ok f =>
      rw [deepfoolCall_ok_unfold env cfg inputs cand f hres hsel] at hy
      have hyx := Except.ok.inj hy
      rw [← hyx]
      exact dfLoop_x_inBounds env f cand cfg.overshoot _ _ inputs cfg.steps
        ⟨inputs, zerosLike inputs⟩ hb hin

/-- C1 (witness): a concrete in-bounds run of the L-infinity attack whose
output is within bounds. -/
theorem output_within_bounds_witness :
    inBounds envAdvNone.model.bounds.1 envAdvNone.model.bounds.2 [[(1 : ℚ)]] :=
  output_within_bounds envAdvNone ⟨1, some 2, 1/50, "logits"⟩ [[1/2]] [[1]]
    (by norm_num [envAdvNone, modelNarrow])
    (by intro r hr v hv; rw [List.mem_singleton] at hr; subst hr;
        rw [List.mem_singleton] at hv; subst hv; norm_num [envAdvNone, modelNarrow])
    (by norm_num [deepfoolCall, resolveCandidates, selectLossFn, classesOf, classesFullOf,
      envAdvNone, modelNarrow, fwdConst, gradOne, argsortDesc, argsortAsc, insertRank, zerosLike,
      dfLoop, dfBody, dfPStep, dfXCand, stackedLosses, stackedGrads, stackAxis1, dfKs,
      lossFunLogits, linfGetDistances, linfGetPerturbations, flatSumAbs, signv, eps8, stab4,
      argminIdx, argminAux, addMat, clipVal, List.range_succ, min_def, max_def])

/-- C2 (counterexample): when `candidates` is `None` the resolved class
count is not validated: with a 1-class model it resolves to `1 < 2` and the
attack raises no error (here with `steps = 0`, so the loop body that would
index out of range is never reached, exactly as in the source). -/
theorem candidates_validation_counterexample :
    resolveCandidates none envOne.model.numClasses = Except.ok 1 ∧ 1 < 2 ∧
    deepfoolCall envOne ⟨0, none, 1/50, "logits"⟩ [[5]] = Except.ok [[5]] :=
  ⟨rfl, by norm_num, by with_unfolding_all decide⟩

/-- C2 (amended): only an explicitly given `candidates` bound is validated:
whenever `candidates = some m` and `min m numClasses < 2`, the call raises
the invalid-configuration error carrying the class count; with
`candidates = None` no such validation occurs. -/
theorem candidates_explicit_lt_two_error (env : DFEnv α) (cfg : DFConfig α) (inputs : Batch α)
    (m : Nat) (hm : cfg.candidates = some m) (hlt : min m env.model.numClasses < 2) :
    deepfoolCall env cfg inputs =
      Except.error (DFError.candidatesError env.model.numClasses) := by
  apply deepfoolCall_error_of_resolve
  rw [hm]
  simp only [resolveCandidates]
  rw [if_neg (Nat.not_le.mpr hlt)]

/-- C2 (witness): `candidates = some 1` on a 1-class model raises the
candidates error. -/
theorem candidates_explicit_lt_two_error_witness :
    min 1 envOne.model.numClasses < 2 ∧
    deepfoolCall envOne ⟨0, some 1, 1/50, "logits"⟩ [[5]] =
      Except.error (DFError.candidatesError envOne.model.numClasses) :=
  ⟨by decide, candidates_explicit_lt_two_error envOne ⟨0, some 1, 1/50, "logits"⟩ [[5]] 1 rfl
    (by decide)⟩

/-- C3 (confirmed): with `steps = 0` and a configuration passing both
validations, the attack returns the input batch unchanged: the loop body
never executes and no perturbation or clip is applied. -/
theorem steps_zero_returns_input (env : DFEnv α) (cfg : DFConfig α) (inputs : Batch α)
    (hs : cfg.steps = 0)
    (hc : ∃ c, resolveCandidates cfg.candidates env.model.numClasses = Except.ok c)
    (hl : cfg.loss = "logits" ∨ cfg.loss = "crossentropy") :
    deepfoolCall env cfg inputs = Except.ok inputs := by
  obtain ⟨c, hc⟩ := hc
  obtain ⟨f, hf⟩ := selectLossFn_ok_of_valid cfg.loss env.model (classesOf env cfg inputs c) hl
  rw [deepfoolCall_ok_unfold env cfg inputs c f hc hf, hs]
  rfl

/-- C3 (witness): a concrete `steps = 0` run returning its input. -/
theorem steps_zero_returns_input_witness :
    deepfoolCall envAdvNone ⟨0, some 2, 1/50, "logits"⟩ [[(1 : ℚ)/2]] = Except.ok [[1/2]] :=
  steps_zero_returns_input envAdvNone ⟨0, some 2, 1/50, "logits"⟩ [[1/2]] rfl ⟨2, rfl⟩
    (Or.inl rfl)

/-- C4 (confirmed): when the criterion flags every sample of the batch
adversarial on the scores computed from the unmodified input, the attack
(with a configuration passing both validations) exits at the first
early-exit check and returns the input unchanged, before any mutation of
`x`. -/
theorem pre_adversarial_returns_input (env : DFEnv α) (cfg : DFConfig α) (inputs : Batch α)
    (hc : ∃ c, resolveCandidates cfg.candidates env.model.numClasses = Except.ok c)
    (hl : cfg.loss = "logits" ∨ cfg.loss = "crossentropy")
    (hadv : (env.crit inputs (env.model.forward inputs)).all (fun b => b) = true) :
    deepfoolCall env cfg inputs = Except.ok inputs := by
  obtain ⟨c, hc⟩ := hc
  obtain ⟨f, hf⟩ := selectLossFn_ok_of_valid cfg.loss env.model (classesOf env cfg inputs c) hl
  rw [deepfoolCall_ok_unfold env cfg inputs c f hc hf]
  cases hn : cfg.steps with
  | zero => rfl
  | succ n =>
    rw [dfLoop_succ_all_adv env f c cfg.overshoot env.model.bounds.1 env.model.bounds.2 inputs n
      ⟨inputs, zerosLike inputs⟩ hadv]

/-- C4 (witness): a concrete pre-adversarial batch returned unchanged. -/
theorem pre_adversarial_returns_input_witness :
    (envAdvAll.crit [[(1 : ℚ)/2]] (envAdvAll.model.forward [[(1 : ℚ)/2]])).all (fun b => b) =
      true ∧
    deepfoolCall envAdvAll ⟨5, some 2, 1/50, "logits"⟩ [[(1 : ℚ)/2]] = Except.ok [[1/2]] :=
  ⟨rfl, pre_adversarial_returns_input envAdvAll ⟨5, some 2, 1/50, "logits"⟩ [[1/2]] ⟨2, rfl⟩
    (Or.inl rfl) rfl⟩

/-- C5 (confirmed): for every (sample, candidate) pair the L2 variant's
distance is `|loss| / (euclidean norm of the flattened gradient + 1e-8)`,
and the per-sample perturbation step is
`(distance / (euclidean norm of the flattened gradient + 1e-8)) * grad`
elementwise. -/
theorem l2_distance_step_formulas (losses : List (List ℝ)) (grads : List (List (List ℝ)))
    (d : List ℝ) (g : List (List ℝ)) (i j : Nat)
    (h1 : i < losses.length) (h2 : i < grads.length)
    (h3 : j < (losses.getD i []).length) (h4 : j < (grads.getD i []).length)
    (h5 : i < d.length) (h6 : i < g.length) (h7 : j < (g.getD i []).length) :
    ((l2GetDistances losses grads).getD i []).getD j 0 =
      |(losses.getD i []).getD j 0| / (l2normFlat ((grads.getD i []).getD j []) + eps8) ∧
    ((l2GetPerturbations d g).getD i []).getD j 0 =
      (d.getD i 0 / (l2normFlat (g.getD i []) + eps8)) * ((g.getD i []).getD j 0) := by
  constructor
  · unfold l2GetDistances
    rw [getD_zipWith _ losses grads i [] [] [] h1 h2]
    exact getD_zipWith _ _ _ j 0 [] 0 h3 h4
  · unfold l2GetPerturbations
    rw [getD_zipWith _ d g i 0 [] [] h5 h6]
    exact getD_map _ _ j 0 0 h7

/-- C5 (witness): the formulas at a concrete sample and candidate. -/
theorem l2_distance_step_formulas_witness :
    ((l2GetDistances [[3]] [[[1, 0]]]).getD 0 []).getD 0 0 =
      |(([[3]] : List (List ℝ)).getD 0 []).getD 0 0| /
        (l2normFlat ((([[[1, 0]]] : List (List (List ℝ))).getD 0 []).getD 0 []) + eps8) ∧
    ((l2GetPerturbations [2] [[4]]).getD 0 []).getD 0 0 =
      (([2] : List ℝ).getD 0 0 / (l2normFlat (([[4]] : List (List ℝ)).getD 0 []) + eps8)) *
        ((([[4]] : List (List ℝ)).getD 0 []).getD 0 0) :=
  l2_distance_step_formulas [[3]] [[[1, 0]]] [2] [[4]] 0 0 (by decide) (by decide) (by decide)
    (by decide) (by decide) (by decide) (by decide)

/-- C6 (confirmed): for every (sample, candidate) pair the L-infinity
variant's distance is `|loss| / (sum of absolute values of the flattened
gradient + 1e-8)`, the per-sample perturbation step is
`distance * sign(grad)` elementwise, and therefore, for a nonnegative
distance, every element of the step at a nonzero gradient entry has
absolute value equal to the distance. -/
theorem linf_distance_step_formulas (losses : List (List α)) (grads : List (List (List α)))
    (d : List α) (g : List (List α)) (i j : Nat)
    (h1 : i < losses.length) (h2 : i < grads.length)
    (h3 : j < (losses.getD i []).length) (h4 : j < (grads.getD i []).length)
    (h5 : i < d.length) (h6 : i < g.length) (h7 : j < (g.getD i []).length)
    (hd : 0 ≤ d.getD i 0) (hg : (g.getD i []).getD j 0 ≠ 0) :
    ((linfGetDistances losses grads).getD i []).getD j 0 =
      |(losses.getD i []).getD j 0| / (flatSumAbs ((grads.getD i []).getD j []) + eps8) ∧
    ((linfGetPerturbations d g).getD i []).getD j 0 =
      d.getD i 0 * signv ((g.getD i []).getD j 0) ∧
    |((linfGetPerturbations d g).getD i []).getD j 0| = d.getD i 0 := by
  have hp : ((linfGetPerturbations d g).getD i []).getD j 0 =
      d.getD i 0 * signv ((g.getD i []).getD j 0) := by
    unfold linfGetPerturbations
    rw [getD_zipWith _ d g i 0 [] [] h5 h6]
    exact getD_map _ _ j 0 0 h7
  refine ⟨?_, hp, ?_⟩
  · unfold linfGetDistances
    rw [getD_zipWith _ losses grads i [] [] [] h1 h2]
    exact getD_zipWith _ _ _ j 0 [] 0 h3 h4
  · rw [hp]
    exact abs_mul_signv _ _ hd hg

/-- C6 (witness): the formulas at a concrete sample and candidate with a
negative gradient entry. -/
theorem linf_distance_step_formulas_witness :
    (0 ≤ ([2] : List ℚ).getD 0 0 ∧ (([[-5]] : List (List ℚ)).getD 0 []).getD 0 0 ≠ 0) ∧
    (((linfGetDistances [[-3]] [[[1, -2]]]).getD 0 []).getD 0 0 =
      |(([[-3]] : List (List ℚ)).getD 0 []).getD 0 0| /
        (flatSumAbs ((([[[1, -2]]] : List (List (List ℚ))).getD 0 []).getD 0 []) + eps8) ∧
    ((linfGetPerturbations [2] [[-5]]).getD 0 []).getD 0 0 =
      ([2] : List ℚ).getD 0 0 * signv ((([[-5]] : List (List ℚ)).getD 0 []).getD 0 0) ∧
    |((linfGetPerturbations [2] [[-5]]).getD 0 []).getD 0 0| = ([2] : List ℚ).getD 0 0) :=
  ⟨⟨by norm_num, by norm_num⟩,
    linf_distance_step_formulas [[-3]] [[[1, -2]]] [2] [[-5]] 0 0 (by decide) (by decide)
      (by decide) (by decide) (by decide) (by decide) (by decide) (by norm_num) (by norm_num)⟩

/-- C7 (counterexample): `p_total` does not stop accumulating for a sample
flagged adversarial.  In a two-sample run whose criterion always flags
sample 0 adversarial (and sample 1 not), sample 0 is flagged adversarial
after the first step, yet its accumulated `p_total` still changes in the
second step: the per-sample mask is applied to `x`, not to `p_total`. -/
theorem ptotal_masking_counterexample :
    (envHalfWide.crit (s7 1).x (envHalfWide.model.forward (s7 1).x)).getD 0 false = true ∧
    (s7 2).pTotal.getD 0 [] ≠ (s7 1).pTotal.getD 0 [] := by
  constructor
  · simp [envHalfWide]
  · norm_num [s7, loss7, cfg7, x7, classesOf, classesFullOf, envHalfWide, modelWide, fwdConst,
      gradOne, argsortDesc, argsortAsc, insertRank, zerosLike, dfLoop, dfBody, dfPStep, dfXCand,
      stackedLosses, stackedGrads, stackAxis1, dfKs, lossFunLogits, linfGetDistances,
      linfGetPerturbations, flatSumAbs, signv, eps8, stab4, argminIdx, argminAux, addMat,
      clipVal, List.range_succ, min_def, max_def]

/-- C7 (amended): in every executed (non-early-exited) step the
accumulator update is unconditional: the new `p_total` is the elementwise
sum of the old `p_total` and the step perturbation for every sample,
adversarial or not; only the `x` update is masked per sample. -/
theorem ptotal_accumulates_unconditionally (env : DFEnv α) (lossFn : Batch α → Nat → List α)
    (cand : Nat) (ov min_ max_ : α) (x0 : Batch α) (n : Nat) (s : DFState α)
    (h : (env.crit s.x (env.model.forward s.x)).all (fun b => b) = false) :
    dfLoop env lossFn cand ov min_ max_ x0 (n + 1) s =
      dfLoop env lossFn cand ov min_ max_ x0 n
        ⟨(dfBody env lossFn cand (env.crit s.x (env.model.forward s.x)) ov min_ max_ x0 s).x,
          addMat s.pTotal (dfPStep env lossFn cand s.x)⟩ := by
  rw [dfLoop, if_neg (by rw [h]; exact Bool.false_ne_true)]
  rfl

/-- C7 (witness): the unconditional accumulator update at a concrete
partially adversarial step. -/
theorem ptotal_accumulates_unconditionally_witness :
    (envHalfWide.crit x7 (envHalfWide.model.forward x7)).all (fun b => b) = false ∧
    dfLoop envHalfWide loss7 2 0 (-10) 10 x7 1 ⟨x7, zerosLike x7⟩ =
      dfLoop envHalfWide loss7 2 0 (-10) 10 x7 0
        ⟨(dfBody envHalfWide loss7 2 (envHalfWide.crit x7 (envHalfWide.model.forward x7)) 0
            (-10) 10 x7 ⟨x7, zerosLike x7⟩).x,
          addMat (zerosLike x7) (dfPStep envHalfWide loss7 2 x7)⟩ :=
  ⟨rfl, ptotal_accumulates_unconditionally envHalfWide loss7 2 0 (-10) 10 x7 0
    ⟨x7, zerosLike x7⟩ rfl⟩

/-- C8 (counterexample): a sample flagged adversarial is not always left
unchanged by a step: the final clip is applied to every sample, including
the adversarial ones.  With bounds `(0, 1)`, the out-of-bounds sample 0
(`x = [2]`) is flagged adversarial at step 1, yet the returned value of
sample 0 is `[1]`, not `[2]`. -/
theorem x_masking_counterexample :
    (envHalf.crit [[2], [1/2]] (envHalf.model.forward [[2], [1/2]])).getD 0 false = true ∧
    deepfoolCall envHalf ⟨1, some 2, 0, "logits"⟩ [[2], [1/2]] = Except.ok [[1], [1]] ∧
    ([(1 : ℚ)] : List ℚ) ≠ [2] := by
  refine ⟨by simp [envHalf], ?_, by norm_num⟩
  norm_num [deepfoolCall, resolveCandidates, selectLossFn, classesOf, classesFullOf, envHalf,
    modelNarrow, fwdConst, gradOne, argsortDesc, argsortAsc, insertRank, zerosLike, dfLoop,
    dfBody, dfPStep, dfXCand, stackedLosses, stackedGrads, stackAxis1, dfKs, lossFunLogits,
    linfGetDistances, linfGetPerturbations, flatSumAbs, signv, eps8, stab4, argminIdx, argminAux,
    addMat, clipVal, List.range_succ, min_def, max_def]

/-- C8 (amended): provided the current working batch lies within the
bounds, one executed step leaves the `x` of every sample flagged
adversarial unchanged (its re-clip is the identity), and sets the `x` of
every non-adversarial sample to `x0 + (1 + overshoot) * p_total` (with the
updated accumulator) clipped elementwise to `[min_, max_]`. -/
theorem x_update_masked (env : DFEnv α) (lossFn : Batch α → Nat → List α) (cand : Nat)
    (isAdv : List Bool) (ov min_ max_ : α) (x0 : Batch α) (s : DFState α) (i : Nat)
    (hx : inBounds min_ max_ s.x)
    (h1 : i < isAdv.length) (h2 : i < s.x.length)
    (h3 : i < (dfXCand ov x0 (dfBody env lossFn cand isAdv ov min_ max_ x0 s).pTotal).length) :
    (isAdv.getD i false = true →
      (dfBody env lossFn cand isAdv ov min_ max_ x0 s).x.getD i [] = s.x.getD i []) ∧
    (isAdv.getD i false = false →
      (dfBody env lossFn cand isAdv ov min_ max_ x0 s).x.getD i [] =
        ((dfXCand ov x0 (dfBody env lossFn cand isAdv ov min_ max_ x0 s).pTotal).getD i []).map
          (clipVal min_ max_)) := by
  have hz1 : i < (List.zipWith Prod.mk isAdv s.x).length := by
    rw [List.length_zipWith]
    exact lt_min_iff.mpr ⟨h1, h2⟩
  have hz2 : i < (List.zipWith (fun p ci => if p.1 then p.2 else ci)
      (List.zipWith Prod.mk isAdv s.x)
      (dfXCand ov x0 (dfBody env lossFn cand isAdv ov min_ max_ x0 s).pTotal)).length := by
    rw [List.length_zipWith]
    exact lt_min_iff.mpr ⟨hz1, h3⟩
  have e0 : (dfBody env lossFn cand isAdv ov min_ max_ x0 s).x.getD i [] =
      (if isAdv.getD i false = true then s.x.getD i []
        else (dfXCand ov x0 (dfBody env lossFn cand isAdv ov min_ max_ x0 s).pTotal).getD i []).map
        (clipVal min_ max_) := by
    rw [dfBody_x]
    rw [getD_map _ _ i [] [] hz2]
    rw [getD_zipWith _ _ _ i (false, ([] : List α)) [] [] hz1 h3]
    rw [getD_zipWith Prod.mk isAdv s.x i false [] (false, ([] : List α)) h1 h2]
  constructor
  · intro hAdv
    rw [e0, hAdv, if_pos rfl]
    have hmem : s.x.getD i [] ∈ s.x := by
      rw [List.getD_eq_getElem s.x [] h2]
      exact List.getElem_mem h2
    exact mapClip_eq_self min_ max_ _ (hx _ hmem)
  · intro hAdv
    rw [e0, hAdv, if_neg Bool.false_ne_true]

/-- C8 (witness): the masked `x` update at a concrete partially
adversarial step. -/
theorem x_update_masked_witness :
    inBounds (0 : ℚ) 1 x7 ∧
    (([true, false].getD 0 false = true →
      (dfBody envHalf wLoss 2 [true, false] 0 0 1 x7 ⟨x7, zerosLike x7⟩).x.getD 0 [] =
        x7.getD 0 []) ∧
    ([true, false].getD 0 false = false →
      (dfBody envHalf wLoss 2 [true, false] 0 0 1 x7 ⟨x7, zerosLike x7⟩).x.getD 0 [] =
        ((dfXCand 0 x7
            (dfBody envHalf wLoss 2 [true, false] 0 0 1 x7 ⟨x7, zerosLike x7⟩).pTotal).getD 0
          []).map (clipVal 0 1))) :=
  ⟨by intro r hr v hv; simp [x7] at hr; subst hr; simp at hv; subst hv; norm_num,
    x_update_masked envHalf wLoss 2 [true, false] 0 0 1 x7 ⟨x7, zerosLike x7⟩ 0
      (by intro r hr v hv; simp [x7] at hr; subst hr; simp at hv; subst hv; norm_num)
      (by decide) (by decide)
      (by norm_num [dfXCand, dfBody, dfPStep, stackedLosses, stackedGrads, stackAxis1, dfKs,
        wLoss, envHalf, modelNarrow, gradOne, fwdConst, linfGetDistances, linfGetPerturbations,
        flatSumAbs, signv, eps8, stab4, argminIdx, argminAux, addMat, zerosLike, x7, clipVal,
        List.range_succ, min_def, max_def])⟩

/-- C9 (confirmed): a loss mode other than the two recognized strings
makes the call raise an invalid-configuration error (the loss error when
the candidate check passes, the candidates error otherwise, both
`ValueError` in the source), and for the two recognized values the loss
error is never raised. -/
theorem loss_mode_validation (env : DFEnv α) (cfg : DFConfig α) (inputs : Batch α) :
    (cfg.loss ≠ "logits" ∧ cfg.loss ≠ "crossentropy" →
      ∃ e, deepfoolCall env cfg inputs = Except.error e) ∧
    (cfg.loss = "logits" ∨ cfg.loss = "crossentropy" →
      ∀ s, deepfoolCall env cfg inputs ≠ Except.error (DFError.lossError s)) := by
  constructor
  · rintro ⟨h1, h2⟩
    cases hres : resolveCandidates cfg.candidates env.model.numClasses with
    | error e => exact ⟨e, deepfoolCall_error_of_resolve env cfg inputs e hres⟩
    | ok cand =>
      exact ⟨DFError.lossError cfg.loss, deepfoolCall_lossError env cfg inputs cand hres h1 h2⟩
  · intro hl s
    cases hres : resolveCandidates cfg.candidates env.model.numClasses with
    | error e =>
      rw [deepfoolCall_error_of_resolve env cfg inputs e hres,
        resolveCandidates_error_eq cfg.candidates env.model.numClasses e hres]
      intro hc
      exact DFError.noConfusion (Except.error.inj hc)
    | ok cand =>
      obtain ⟨f, hf⟩ := selectLossFn_ok_of_valid cfg.loss env.model
        (classesOf env cfg inputs cand) hl
      rw [deepfoolCall_ok_unfold env cfg inputs cand f hres hf]
      intro hc
      exact Except.noConfusion hc

/-- C9 (witness): an unrecognized loss string raises an error at a
concrete call. -/
theorem loss_mode_validation_witness :
    ("bogus" ≠ "logits" ∧ "bogus" ≠ "crossentropy") ∧
    ∃ e, deepfoolCall envAdvNone ⟨1, some 2, 1/50, "bogus"⟩ [[0]] = Except.error e :=
  ⟨⟨by decide, by decide⟩,
    (loss_mode_validation envAdvNone ⟨1, some 2, 1/50, "bogus"⟩ [[0]]).1 ⟨by decide, by decide⟩⟩

/-- C10 (confirmed): an explicit `candidates` bound `m` larger than the
class count `C` (with `C ≥ 2`) raises no error: the count is silently
truncated to `min(m, C) = C`, and truncating a length-`C` candidate row to
`C` entries keeps every class, so the search proceeds over all `C`
classes. -/
theorem candidates_truncated_to_numclasses (α : Type) [LinearOrderedField α] (m C : Nat)
    (h2 : 2 ≤ C) (hm : C < m) :
    resolveCandidates (some m) C = Except.ok C ∧
    ∀ row : List α, row.length = C → (argsortDesc row).take C = argsortDesc row := by
  constructor
  · simp only [resolveCandidates]
    rw [min_eq_right (le_of_lt hm), if_pos h2]
  · intro row hrow
    apply List.take_of_length_le
    rw [argsortDesc_length, hrow]

/-- C10 (witness): `candidates = 5` on a 3-class model resolves to 3 with
no error. -/
theorem candidates_truncated_to_numclasses_witness :
    (2 ≤ 3 ∧ 3 < 5) ∧
    (resolveCandidates (some 5) 3 = Except.ok 3 ∧
      ∀ row : List ℚ, row.length = 3 → (argsortDesc row).take 3 = argsortDesc row) :=
  ⟨⟨by decide, by decide⟩, candidates_truncated_to_numclasses ℚ 5 3 (by decide) (by decide)⟩

end DeepFool
